import Mathlib

/-!
Shallow embedding of `src/api.py` (doxygen-XML API extraction script).

The embedding mirrors the source function by function:

* `Node` and its variants (`File`, `Group`, `Struct`, `Function`, `Param`)
  become a single structure carrying a `variant` tag plus optional
  variant-specific fields; an optional field is `none` exactly when the
  corresponding Python attribute is a class attribute that was never
  assigned on the instance (so it is absent from the instance `__dict__`).
* Python `set` fields are modelled as insertion-ordered duplicate-free
  lists (`set_add` inserts only when absent), which captures set
  membership and idempotence while staying executable.
* The doxmlparser record types (`location`, `linkedTextType`,
  `memberdefType`, `sectiondefType`, `compounddefType`, the index
  compounds) become plain structures holding exactly the fields the
  script reads; `hasattr(loc, ...)` is always true on the generated
  classes, and Python truthiness of an optional string (`None` or `""`
  are falsy) is modelled by `truthy_header_file`.
* `concurrent.futures.Executor.map` is embedded by its documented
  semantics: the input is split into contiguous chunks, each chunk is
  mapped by one worker, and the results are delivered in input order
  independently of worker completion order (`executor_map`).
* `random.shuffle` is a caller-supplied reordering function parameter of
  `parse_all`, and the XML directory is a function from a compound id to
  the list of compound definitions parsed from `<id>.xml`.
* The `MyEncoder` JSON serializer (`json.JSONEncoder` with a `default`
  that turns a `set` into a list and any other object into its
  `__dict__`) becomes `node_to_json` / `entry_to_json`: each node is
  rendered as the ordered key/value list of the instance attributes the
  parse flow actually assigned, in assignment order.
-/

/-- Python `str.endswith`, evaluated on the underlying character lists. -/
def str_ends_with (s suffix : String) : Bool :=
  List.isSuffixOf suffix.data s.data

/-- Source constant `HEADER_FILE_EXTENSION = '.h'`. -/
def HEADER_FILE_EXTENSION : String := ".h"

/-- Python class `Param` (`index`, `type`, `name`, `desc`); all four
attributes are assigned by `parse_function` before serialization. -/
structure Param where
  index : Nat
  type : String
  name : String
  desc : String
deriving DecidableEq, Repr

/-- Which Python class a `Node` instance belongs to: `File`, `Group`,
`Struct` (covering both struct and union, discriminated by `is_union`),
or `Function`. -/
inductive NodeVariant where
  | file : NodeVariant
  | group : NodeVariant
  | structUnion : NodeVariant
  | func : NodeVariant
deriving DecidableEq, Repr

/-- Python class `Node` and its subclasses, as one record. Optional
fields are `none` when the attribute was never assigned on the instance
(for `File`/`Group`/`Function` the class attribute `kind` is never
instance-assigned; `Struct.__init__` assigns `is_union` and `kind`;
`Group` code assigns `title`; `Function.__init__` assigns `params`;
`parse_function` assigns `return_type`). `parent_ids`/`children_ids`
model Python sets as insertion-ordered duplicate-free lists and are
`none` until the first `add_parent`/`add_child` call. -/
structure Node where
  variant : NodeVariant
  id : String
  name : String
  file : String := ""
  line : Option Int := none
  parent_ids : Option (List String) := none
  children_ids : Option (List String) := none
  desc : String := ""
  title : Option String := none
  is_union : Option Bool := none
  return_type : Option String := none
  params : Option (List Param) := none
deriving DecidableEq, Repr

/-- `Node.__init__(id, name)`: only `id` and `name` are assigned. -/
def Node_init (variant : NodeVariant) (id name : String) : Node :=
  { variant := variant, id := id, name := name }

/-- `File(id, name)`; `kind` stays the class attribute `'file'`. -/
def File_init (id name : String) : Node :=
  Node_init NodeVariant.file id name

/-- `Group(id, name)`; `kind` stays the class attribute `'group'` and
`title` stays the class attribute `''` until assigned. -/
def Group_init (id name : String) : Node :=
  Node_init NodeVariant.group id name

/-- `Struct.__init__(id, name, is_union)`: assigns `is_union` and then
`kind = 'union' if is_union else 'struct'` on the instance. -/
def Struct_init (id name : String) (is_union : Bool) : Node :=
  { Node_init NodeVariant.structUnion id name with is_union := some is_union }

/-- `Function.__init__(id, name)`: assigns `params = []` on the
instance; `kind` and `return_type` stay class attributes. -/
def Function_init (id name : String) : Node :=
  { Node_init NodeVariant.func id name with params := some [] }

/-- The effective `kind` attribute of a node: the instance attribute for
`Struct` (assigned in `Struct.__init__`), the class attribute otherwise. -/
def Node.kind (n : Node) : String :=
  match n.variant with
  | NodeVariant.file => "file"
  | NodeVariant.group => "group"
  | NodeVariant.structUnion => if n.is_union = some true then "union" else "struct"
  | NodeVariant.func => "func"

/-- Python `set.add` on the insertion-ordered list model: a no-op when
the element is already present. -/
def set_add (s : List String) (x : String) : List String :=
  if x ∈ s then s else s ++ [x]

/-- `Node.add_parent`: create the set on first use (`if not
self.parent_ids`, which replaces `None` or an empty set), then add. -/
def Node.add_parent (n : Node) (parent : String) : Node :=
  { n with parent_ids := some (set_add (n.parent_ids.getD []) parent) }

/-- `Node.add_child`: create the set on first use, then add. -/
def Node.add_child (n : Node) (child : String) : Node :=
  { n with children_ids := some (set_add (n.children_ids.getD []) child) }

/-- The doxmlparser location record. The generated class always has all
six attributes (`hasattr` is true); each is `None` or a value. -/
structure Location where
  bodyfile : Option String := none
  bodystart : Option Int := none
  file : Option String := none
  line : Option Int := none
  declfile : Option String := none
  declline : Option Int := none
deriving DecidableEq, Repr

/-- Truthiness-plus-suffix test used by `parse_location`: Python
`loc.f and loc.f.endswith(HEADER_FILE_EXTENSION)` where `loc.f` is
`None` or a string (`None` and `""` are falsy). -/
def truthy_header_file (f : Option String) : Bool :=
  match f with
  | none => false
  | some s => (s != "") && str_ends_with s HEADER_FILE_EXTENSION

/-- Source `parse_location(node, compound)`: resolve `node.file` /
`node.line` from the compound's optional location record by trying
(bodyfile, bodystart), then (file, line), then (declfile, declline),
accepting the first whose file is a truthy string ending in `'.h'`;
otherwise `file = ''` and `line = None`. -/
def parse_location (node : Node) (loc : Option Location) : Node :=
  match loc with
  | none => { node with file := "", line := none }
  | some l =>
    if truthy_header_file l.bodyfile then
      { node with file := l.bodyfile.getD "", line := l.bodystart }
    else if truthy_header_file l.file then
      { node with file := l.file.getD "", line := l.line }
    else if truthy_header_file l.declfile then
      { node with file := l.declfile.getD "", line := l.declline }
    else
      { node with file := "", line := none }

/-- Source `parse_description(*args)`: a stub returning `''`. -/
def parse_description : String := ""

/-- One entry of `linkedTextType.content_`: a `MixedContainer` that is
either plain text (`CategoryText`, carrying the literal string) or a
complex element (`CategoryComplex`, carrying its element name and, for
`ref` elements, the `refTextType`'s `valueOf_` display string). -/
inductive TypeFragment where
  | text : String → TypeFragment
  | complex : (name : String) → (value : String) → TypeFragment
deriving DecidableEq, Repr

/-- Loop body of `parse_type`: append text of a text fragment, append
the display value of a `ref` complex fragment, skip everything else. -/
def parse_type_step (result : String) (part : TypeFragment) : String :=
  match part with
  | TypeFragment.text value => result ++ value
  | TypeFragment.complex name value =>
    if name = "ref" then result ++ value else result

/-- Source `parse_type(type)`: `'void'` for a missing record, otherwise
the fold of `parse_type_step` over the record's fragments. -/
def parse_type (type : Option (List TypeFragment)) : String :=
  match type with
  | none => "void"
  | some parts => parts.foldl parse_type_step ""

/-- The doxmlparser `paramType` fields the script reads. -/
structure DoxParam where
  declname : String
  type : Option (List TypeFragment)
deriving DecidableEq, Repr

/-- The doxmlparser `memberdefType` fields the script reads. -/
structure MemberDef where
  kind : String
  id : String
  name : String
  location : Option Location
  param : List DoxParam
  type : Option (List TypeFragment)
deriving DecidableEq, Repr

/-- Loop body of `parse_function`: `func.add_param()` creates a `Param`
whose `index` is the current parameter count, appends it, and the caller
then assigns its `desc`, `name` and `type`. -/
def parse_function_step (func : Node) (dox_param : DoxParam) : Node :=
  let param : Param :=
    { index := (func.params.getD []).length
      desc := parse_description
      name := dox_param.declname
      type := parse_type dox_param.type }
  { func with params := some (func.params.getD [] ++ [param]) }

/-- Source `parse_function(memberdef)`: build a `Function` node, resolve
its location and description, fill one `Param` per declared parameter in
declaration order, then assign the flattened return type. -/
def parse_function (memberdef : MemberDef) : Node :=
  let func := Function_init memberdef.id memberdef.name
  let func := parse_location func memberdef.location
  let func := { func with desc := parse_description }
  let func := memberdef.param.foldl parse_function_step func
  { func with return_type := some (parse_type memberdef.type) }

/-- Source `parse_memberdef(memberdef)`: only function-kind member
definitions yield a node (`DoxMemberKind.FUNCTION = 'function'`). -/
def parse_memberdef (memberdef : MemberDef) : List Node :=
  if memberdef.kind = "function" then [parse_function memberdef] else []

/-- The doxmlparser `sectiondefType` fields the script reads: member
reference entries (their `refid`) and full member definitions. -/
structure SectionDef where
  member : List String
  memberdef : List MemberDef
deriving DecidableEq, Repr

/-- The doxmlparser `compounddefType` fields the script reads;
`innerclass`/`innergroup` are the `refid`s of the inner references. -/
structure CompoundDef where
  kind : String
  id : String
  compoundname : String
  title : String
  location : Option Location
  innerclass : List String
  innergroup : List String
  sectiondef : List SectionDef
deriving DecidableEq, Repr

/-- Source `parse_file_or_group(node, compound)`: `result = [node]`,
resolve location and description, add every inner class/group `refid`
as a child, then for each section add every member reference as a child
and parse every member definition, adding each parsed child's id to the
container and extending `result` with the parsed children. The Python
list holds an alias of the mutated `node`, so the final node state is
the head of the returned list. -/
def parse_file_or_group (node : Node) (compound : CompoundDef) : List Node :=
  let node := parse_location node compound.location
  let node := { node with desc := parse_description }
  let node := (compound.innerclass ++ compound.innergroup).foldl Node.add_child node
  let step := compound.sectiondef.foldl
    (fun acc sectiondef =>
      let node := sectiondef.member.foldl Node.add_child acc.1
      sectiondef.memberdef.foldl
        (fun acc memberdef =>
          let children := parse_memberdef memberdef
          let node := children.foldl (fun n child => n.add_child child.id) acc.1
          (node, acc.2 ++ children))
        (node, acc.2))
    (node, ([] : List Node))
  step.1 :: step.2

/-- Source `parse_file(compound)`. -/
def parse_file (compound : CompoundDef) : List Node :=
  parse_file_or_group (File_init compound.id compound.compoundname) compound

/-- Source `parse_group(compound)`: also assigns `title`. -/
def parse_group (compound : CompoundDef) : List Node :=
  let group := Group_init compound.id compound.compoundname
  let group := { group with title := some compound.title }
  parse_file_or_group group compound

/-- Source `parse_struct(compound, is_union)`: despite its
`list[Node]` annotation it returns the bare `Struct` node. -/
def parse_struct (compound : CompoundDef) (is_union : Bool) : Node :=
  let struct := Struct_init compound.id compound.compoundname is_union
  let struct := parse_location struct compound.location
  { struct with desc := parse_description }

/-- One element of the Python list built by `process_compound`:
`result.append(parse_file(compound))` / `result.append(parse_group(...))`
append a whole `list[Node]` as one element, while the struct branch
appends the bare node `parse_struct` returns. -/
inductive Entry where
  | node : Node → Entry
  | nodeList : List Node → Entry
deriving DecidableEq, Repr

/-- The warning text of `process_compound`'s else branch. -/
def unexpected_kind_warning (kind : String) : String :=
  "Unexpected doxygen compound kind: \"" ++ kind ++ "\""

/-- The warning text of `parse_all`'s else branch. -/
def unknown_kind_warning (kind : String) : String :=
  "Unknown doxygen compound kind: \"" ++ kind ++ "\""

/-- Loop body of `process_compound` over one decoded compound
definition; the second component collects the warnings printed to
stderr. -/
def process_compound_step (acc : List Entry × List String) (compound : CompoundDef) :
    List Entry × List String :=
  if compound.kind = "file" then
    (acc.1 ++ [Entry.nodeList (parse_file compound)], acc.2)
  else if compound.kind = "group" then
    (acc.1 ++ [Entry.nodeList (parse_group compound)], acc.2)
  else if compound.kind = "struct" ∨ compound.kind = "class" ∨ compound.kind = "union" then
    (acc.1 ++ [Entry.node (parse_struct compound (compound.kind = "union"))], acc.2)
  else
    (acc.1, acc.2 ++ [unexpected_kind_warning compound.kind])

/-- Source `process_compound(id)`, applied to the list of compound
definitions decoded from `<id>.xml`: returns the accumulated `result`
list and the warnings emitted. -/
def process_compound (doc : List CompoundDef) : List Entry × List String :=
  doc.foldl process_compound_step ([], [])

/-- Python `if executor_workers is None or executor_workers < 1:
executor_workers = 1` applied to `os.cpu_count()`. -/
def executor_workers_value (cpu_count : Option Nat) : Nat :=
  match cpu_count with
  | none => 1
  | some w => if w < 1 then 1 else w

/-- Contiguous chunking of a worklist: chunks of `chunksize` items (the
degenerate `chunksize = 0` keeps the whole list in one chunk, matching
`List.toChunks`; the script only reaches `chunksize ≥ 1`). -/
def chunk_split {α : Type} : Nat → List α → List (List α)
  | _, [] => []
  | 0, xs => [xs]
  | n + 1, x :: xs => (x :: List.take n xs) :: chunk_split (n + 1) (List.drop n xs)
termination_by _ xs => xs.length
decreasing_by simp [List.length_drop]; omega

/-- `concurrent.futures.Executor.map(func, collected, chunksize)` by its
documented semantics: each worker maps one contiguous chunk and the
results are concatenated in chunk (that is, input) order, regardless of
which worker completes first. -/
def executor_map {α β : Type} (func : α → β) (collected : List α) (chunksize : Nat) :
    List β :=
  ((chunk_split chunksize collected).map (fun chunk => chunk.map func)).flatten

/-- Source `concurrent_pool_iter(func, iterable, use_process,
threshold)`: when the collected input has at least `threshold` items,
dispatch through a (process or thread) executor pool with `chunksize =
ceil(n / workers)`; otherwise map sequentially in the calling context.
Either way the function returns `zip(it, collected,
range(len(collected)))`. The second component records whether the call
went through an executor pool. `cpu_count` stands for `os.cpu_count()`. -/
def concurrent_pool_iter {α β : Type} (func : α → β) (iterable : List α)
    (use_process : Bool) (threshold : Nat) (cpu_count : Option Nat) :
    List (β × α × Nat) × Bool :=
  let collected := iterable
  if threshold ≤ collected.length then
    let workers := executor_workers_value cpu_count
    let chunksize := (collected.length + workers - 1) / workers
    (List.zip (executor_map func collected chunksize)
      (List.zip collected (List.range collected.length)), true)
  else
    (List.zip (collected.map func)
      (List.zip collected (List.range collected.length)), false)

/-- One compound record of the index document: its `refid` and `kind`. -/
structure IndexCompound where
  refid : String
  kind : String
deriving DecidableEq, Repr

/-- Loop body of `parse_all`'s index scan: keep the `refid` of
file/group/struct/class/union compounds, silently pass over
page/dir/category/concept/example compounds, warn on anything else. -/
def parse_all_ids_step (acc : List String × List String) (compound : IndexCompound) :
    List String × List String :=
  if compound.kind = "file" ∨ compound.kind = "group" ∨ compound.kind = "struct" ∨
      compound.kind = "class" ∨ compound.kind = "union" then
    (acc.1 ++ [compound.refid], acc.2)
  else if compound.kind = "page" ∨ compound.kind = "dir" ∨ compound.kind = "category" ∨
      compound.kind = "concept" ∨ compound.kind = "example" then
    acc
  else
    (acc.1, acc.2 ++ [unknown_kind_warning compound.kind])

/-- The index scan of `parse_all` (source lines 255-270): the kept ids
in index order and the warnings emitted. -/
def parse_all_ids (index : List IndexCompound) : List String × List String :=
  index.foldl parse_all_ids_step ([], [])

/-- Source `parse_all(dir)`: scan the index, shuffle the kept ids
(`shuffled` stands for `random.shuffle`), dispatch `process_compound`
over them through `concurrent_pool_iter(..., True, 20)`, and run
`nodes.extend(node)` for each returned triple's first component. `docs`
maps a compound id to the compound definitions decoded from
`<id>.xml`. Returns the global `nodes` list and the index-scan
warnings. -/
def parse_all (index : List IndexCompound) (docs : String → List CompoundDef)
    (shuffled : List String → List String) (cpu_count : Option Nat) :
    List Entry × List String :=
  let scan := parse_all_ids index
  let ids := shuffled scan.1
  let results := concurrent_pool_iter (fun id => process_compound (docs id))
    ids true 20 cpu_count
  (results.1.foldl (fun nodes t => nodes ++ t.1.1) [], scan.2)

/-- JSON documents, as produced by `json.JSONEncoder`. -/
inductive Json where
  | str : String → Json
  | num : Int → Json
  | bool : Bool → Json
  | null : Json
  | arr : List Json → Json
  | obj : List (String × Json) → Json
deriving Repr

/-- JSON of an optional line number: `None` encodes as `null`. -/
def json_of_line : Option Int → Json
  | none => Json.null
  | some v => Json.num v

/-- `MyEncoder` on a `Param` object: `o.__dict__` in assignment order
(`add_param` assigns `index`; `parse_function` then assigns `desc`,
`name`, `type`). -/
def param_to_json (p : Param) : Json :=
  Json.obj [("index", Json.num (p.index : Int)), ("desc", Json.str p.desc),
    ("name", Json.str p.name), ("type", Json.str p.type)]

/-- The relationship-set keys of a node's `__dict__`: present only once
`add_child`/`add_parent` ran (both run after the location/description
assignments), each rendered by `MyEncoder` as `list(o)` of the set. -/
def relationship_fields (n : Node) : List (String × Json) :=
  (match n.children_ids with
   | none => []
   | some s => [("children_ids", Json.arr (s.map Json.str))]) ++
  (match n.parent_ids with
   | none => []
   | some s => [("parent_ids", Json.arr (s.map Json.str))])

/-- `MyEncoder` on a `Node` instance: `o.__dict__` in assignment order.
`kind` appears only for `Struct` instances, whose `__init__` assigns
`is_union` and then `kind`; for `File`, `Group` and `Function` the
class attribute `kind` is not in the instance `__dict__`. A `Group`
node's `title`, a `Function` node's `params` and `return_type` appear
when assigned (the parse flows always assign them). -/
def node_to_json (n : Node) : Json :=
  match n.variant with
  | NodeVariant.file =>
    Json.obj ([("id", Json.str n.id), ("name", Json.str n.name),
      ("file", Json.str n.file), ("line", json_of_line n.line),
      ("desc", Json.str n.desc)] ++ relationship_fields n)
  | NodeVariant.group =>
    Json.obj ([("id", Json.str n.id), ("name", Json.str n.name)] ++
      (match n.title with
       | none => []
       | some t => [("title", Json.str t)]) ++
      [("file", Json.str n.file), ("line", json_of_line n.line),
        ("desc", Json.str n.desc)] ++ relationship_fields n)
  | NodeVariant.structUnion =>
    Json.obj ([("id", Json.str n.id), ("name", Json.str n.name)] ++
      (match n.is_union with
       | none => []
       | some b =>
         [("is_union", Json.bool b),
           ("kind", Json.str (if b then "union" else "struct"))]) ++
      [("file", Json.str n.file), ("line", json_of_line n.line),
        ("desc", Json.str n.desc)] ++ relationship_fields n)
  | NodeVariant.func =>
    Json.obj ([("id", Json.str n.id), ("name", Json.str n.name)] ++
      (match n.params with
       | none => []
       | some ps => [("params", Json.arr (ps.map param_to_json))]) ++
      [("file", Json.str n.file), ("line", json_of_line n.line),
        ("desc", Json.str n.desc)] ++
      (match n.return_type with
       | none => []
       | some rt => [("return_type", Json.str rt)]) ++ relationship_fields n)

/-- `MyEncoder` on one element of the global `nodes` list: a bare node
encodes as its object, a nested `list[Node]` as a JSON array. -/
def entry_to_json : Entry → Json
  | Entry.node n => node_to_json n
  | Entry.nodeList l => Json.arr (l.map node_to_json)

/-- The serialized output document: `MyEncoder(indent=4).encode(nodes)`. -/
def nodes_to_json (entries : List Entry) : Json :=
  Json.arr (entries.map entry_to_json)

/-- The keys of a JSON object, in order. -/
def json_obj_keys : Json → List String
  | Json.obj fields => fields.map Prod.fst
  | _ => []

/-- Spec-side rendering of one type fragment: the literal text of a
plain fragment, the display value of a reference fragment (and nothing
for any other complex fragment). -/
def render_fragment : TypeFragment → String
  | TypeFragment.text value => value
  | TypeFragment.complex name value => if name = "ref" then value else ""

/-- Spec-side in-order concatenation of the fragment renderings. -/
def flatten_fragments : List TypeFragment → String
  | [] => ""
  | part :: parts => render_fragment part ++ flatten_fragments parts

/-- Whether a fragment is plain text or a `ref` complex fragment. -/
def plain_or_ref : TypeFragment → Bool
  | TypeFragment.text _ => true
  | TypeFragment.complex name _ => name == "ref"

/-- Spec-side candidate list of a location record, in the priority
order [body, primary, declaration]. -/
def location_candidates (l : Location) : List (Option String × Option Int) :=
  [(l.bodyfile, l.bodystart), (l.file, l.line), (l.declfile, l.declline)]

/-- The compound kinds the script dispatches (index and compound level). -/
def recognized_kinds : List String := ["file", "group", "struct", "class", "union"]

/-- The compound kinds the index scan skips without a warning. -/
def silent_kinds : List String := ["page", "dir", "category", "concept", "example"]

/-- Whether one element of the global `nodes` list is a single node
(rather than a nested `list[Node]`). -/
def entry_is_single_node : Entry → Bool
  | Entry.node _ => true
  | Entry.nodeList _ => false

/-- A function member definition with no parameters and no return-type
record, as decoded from a compound document. -/
def example_function_memberdef : MemberDef :=
  { kind := "function", id := "fn1", name := "foo", location := none,
    param := [], type := none }

/-- A file compound whose one section carries a single function member
definition. -/
def example_file_compound : CompoundDef :=
  { kind := "file", id := "f1c", compoundname := "a.h", title := "",
    location := none, innerclass := [], innergroup := [],
    sectiondef := [{ member := [], memberdef := [example_function_memberdef] }] }

/-- A struct compound with no members. -/
def example_struct_compound : CompoundDef :=
  { kind := "struct", id := "s1c", compoundname := "bar", title := "",
    location := none, innerclass := [], innergroup := [], sectiondef := [] }

/-- An index listing the one file compound. -/
def example_index : List IndexCompound :=
  [{ refid := "f1c", kind := "file" }]

/-- The XML directory for the example: `f1c.xml` decodes to the file
compound, anything else to nothing. -/
def example_docs (id : String) : List CompoundDef :=
  if id = "f1c" then [example_file_compound] else []

/-- The file node `parse_file example_file_compound` produces. -/
def example_parsed_file : Node :=
  { variant := NodeVariant.file, id := "f1c", name := "a.h",
    children_ids := some ["fn1"] }

/-- The function node `parse_function example_function_memberdef`
produces. -/
def example_parsed_function : Node :=
  { variant := NodeVariant.func, id := "fn1", name := "foo",
    return_type := some "void", params := some [] }

/-- The `Param` value `parse_function` builds for the declared
parameter at 0-based position `i`. -/
def param_of (i : Nat) (dox_param : DoxParam) : Param :=
  { index := i, desc := parse_description, name := dox_param.declname,
    type := parse_type dox_param.type }

/-- A location record exposing only a non-header primary `file` and a
header-suffixed `declfile`. -/
def example_split_location : Location :=
  { bodyfile := none, bodystart := none, file := some "impl.c", line := some 10,
    declfile := some "decl.h", declline := some 42 }

theorem set_add_mem (s : List String) (x : String) : x ∈ set_add s x := by
  unfold set_add
  by_cases h : x ∈ s
  · rw [if_pos h]; exact h
  · rw [if_neg h]; simp

theorem set_add_already_mem (s : List String) (x : String) (h : x ∈ s) :
    set_add s x = s := by
  unfold set_add
  rw [if_pos h]

theorem set_add_twice (s : List String) (x : String) :
    set_add (set_add s x) x = set_add s x :=
  set_add_already_mem _ _ (set_add_mem s x)

theorem str_append_assoc (a b c : String) : a ++ b ++ c = a ++ (b ++ c) := by
  cases a with | mk la =>
  cases b with | mk lb =>
  cases c with | mk lc =>
  show String.mk (la ++ lb ++ lc) = String.mk (la ++ (lb ++ lc))
  rw [List.append_assoc]

theorem chunk_split_join {α : Type} (n : Nat) (xs : List α) :
    (chunk_split n xs).flatten = xs := by
  match n, xs with
  | _, [] => simp [chunk_split]
  | 0, x :: xs => simp [chunk_split]
  | n + 1, x :: xs =>
    have ih := chunk_split_join (n + 1) (xs.drop n)
    simp [chunk_split, ih]
termination_by xs.length
decreasing_by simp [List.length_drop]; omega

theorem executor_map_eq_map {α β : Type} (func : α → β) (collected : List α)
    (chunksize : Nat) : executor_map func collected chunksize = collected.map func := by
  unfold executor_map
  have h : ((chunk_split chunksize collected).map (fun chunk => chunk.map func)).flatten =
      (chunk_split chunksize collected).flatten.map func := by
    simp [List.map_flatten]
  rw [h, chunk_split_join]

theorem zip_triples_enumFrom {α β : Type} (func : α → β) :
    ∀ (xs : List α) (k : Nat),
      List.zip (xs.map func) (List.zip xs (List.range' k xs.length)) =
        (List.enumFrom k xs).map (fun p => (func p.2, p.2, p.1)) := by
  intro xs
  induction xs with
  | nil => intro k; rfl
  | cons x xs ih =>
    intro k
    exact congrArg (List.cons (func x, x, k)) (ih (k + 1))

theorem concurrent_pool_iter_pooled {α β : Type} (func : α → β) (iterable : List α)
    (use_process : Bool) (threshold : Nat) (cpu_count : Option Nat)
    (h : threshold ≤ iterable.length) :
    concurrent_pool_iter func iterable use_process threshold cpu_count =
      (List.zip (iterable.map func) (List.zip iterable (List.range iterable.length)),
        true) := by
  unfold concurrent_pool_iter
  rw [if_pos h]
  simp only [executor_map_eq_map]

theorem concurrent_pool_iter_sequential {α β : Type} (func : α → β) (iterable : List α)
    (use_process : Bool) (threshold : Nat) (cpu_count : Option Nat)
    (h : ¬ threshold ≤ iterable.length) :
    concurrent_pool_iter func iterable use_process threshold cpu_count =
      (List.zip (iterable.map func) (List.zip iterable (List.range iterable.length)),
        false) := by
  unfold concurrent_pool_iter
  rw [if_neg h]

/-- Claim C3: for every function and every finite input collection, of
any size relative to the threshold, `concurrent_pool_iter` yields
exactly one triple `(func item, item, index)` per input item, in input
order, with `index` the 0-based position of the item; worker completion
order cannot influence this since `executor_map` delivers results in
input order. -/
theorem concurrent_pool_iter_triples_in_input_order {α β : Type} (func : α → β)
    (iterable : List α) (use_process : Bool) (threshold : Nat) (cpu_count : Option Nat) :
    (concurrent_pool_iter func iterable use_process threshold cpu_count).1 =
      (List.enum iterable).map (fun p => (func p.2, p.2, p.1)) := by
  have hz := zip_triples_enumFrom func iterable 0
  rw [← List.range_eq_range'] at hz
  by_cases h : threshold ≤ iterable.length
  · rw [concurrent_pool_iter_pooled func iterable use_process threshold cpu_count h]
    exact hz
  · rw [concurrent_pool_iter_sequential func iterable use_process threshold cpu_count h]
    exact hz

/-- Claim C8: when the input collection is smaller than the threshold,
`concurrent_pool_iter` returns exactly the direct sequential mapping
`(func x0, x0, 0), (func x1, x1, 1), ...` and no worker pool is
involved (second component `false`). -/
theorem concurrent_pool_iter_sequential_below_threshold {α β : Type} (func : α → β)
    (iterable : List α) (use_process : Bool) (threshold : Nat) (cpu_count : Option Nat)
    (h : iterable.length < threshold) :
    concurrent_pool_iter func iterable use_process threshold cpu_count =
      ((List.enum iterable).map (fun p => (func p.2, p.2, p.1)), false) := by
  have hz := zip_triples_enumFrom func iterable 0
  rw [← List.range_eq_range'] at hz
  rw [concurrent_pool_iter_sequential func iterable use_process threshold cpu_count
    (by omega), hz]
  rfl

/-- Witness for claim C8 at a concrete input below the threshold. -/
theorem concurrent_pool_iter_sequential_below_threshold_witness :
    concurrent_pool_iter (fun n : Nat => n * 2) [10, 11, 12] true 20 (some 8) =
      ([(20, 10, 0), (22, 11, 1), (24, 12, 2)], false) := by
  rw [concurrent_pool_iter_sequential_below_threshold (fun n : Nat => n * 2)
    [10, 11, 12] true 20 (some 8) (by decide)]
  rfl

theorem parse_type_foldl_eq (parts : List TypeFragment) :
    ∀ acc : String, parts.foldl parse_type_step acc = acc ++ flatten_fragments parts := by
  induction parts with
  | nil => intro acc; simp [flatten_fragments, String.append_empty]
  | cons part parts ih =>
    intro acc
    cases part with
    | text value =>
      show parts.foldl parse_type_step (acc ++ value) = _
      rw [ih (acc ++ value), flatten_fragments, render_fragment, str_append_assoc]
    | complex name value =>
      by_cases h : name = "ref"
      · show parts.foldl parse_type_step (parse_type_step acc (TypeFragment.complex name value)) = _
        rw [show parse_type_step acc (TypeFragment.complex name value) = acc ++ value from by
          simp [parse_type_step, h]]
        rw [ih (acc ++ value), flatten_fragments, render_fragment, if_pos h, str_append_assoc]
      · show parts.foldl parse_type_step (parse_type_step acc (TypeFragment.complex name value)) = _
        rw [show parse_type_step acc (TypeFragment.complex name value) = acc from by
          simp [parse_type_step, h]]
        rw [ih acc, flatten_fragments, render_fragment, if_neg h, String.empty_append]

theorem flatten_fragments_filter (parts : List TypeFragment) :
    flatten_fragments parts = flatten_fragments (parts.filter plain_or_ref) := by
  induction parts with
  | nil => rfl
  | cons part parts ih =>
    cases part with
    | text value => simp [flatten_fragments, plain_or_ref, ih, List.filter]
    | complex name value =>
      by_cases h : name = "ref"
      · simp [flatten_fragments, plain_or_ref, h, ih, List.filter]
      · have hb : plain_or_ref (TypeFragment.complex name value) = false := by
          simp [plain_or_ref, h]
        simp [flatten_fragments, render_fragment, h, ih, List.filter, hb, String.empty_append]

/-- Claim C5: `parse_type` returns the in-order concatenation of each
plain fragment's literal text and each reference fragment's display
value; the fragment sequence `["const ", ref "foo", " *"]` flattens to
`"const foo *"`, and a missing type record flattens to `"void"`. -/
theorem parse_type_concatenates_fragments :
    (∀ parts : List TypeFragment, parse_type (some parts) = flatten_fragments parts) ∧
    parse_type (some [TypeFragment.text "const ", TypeFragment.complex "ref" "foo",
      TypeFragment.text " *"]) = "const foo *" ∧
    parse_type none = "void" := by
  refine ⟨fun parts => ?_, by decide, rfl⟩
  show parts.foldl parse_type_step "" = _
  rw [parse_type_foldl_eq parts "", String.empty_append]

/-- Claim C10: any complex fragment whose element name is not `ref`
contributes nothing to `parse_type`: the result equals the flattening of
the fragment list restricted to plain-text and `ref` fragments. -/
theorem parse_type_ignores_non_ref_complex :
    (∀ parts : List TypeFragment,
      parse_type (some parts) = parse_type (some (parts.filter plain_or_ref))) ∧
    parse_type (some [TypeFragment.text "const ", TypeFragment.complex "linebreak" "IGNORED",
      TypeFragment.text "int"]) = "const int" := by
  refine ⟨fun parts => ?_, by decide⟩
  show parts.foldl parse_type_step "" = (parts.filter plain_or_ref).foldl parse_type_step ""
  rw [parse_type_foldl_eq, parse_type_foldl_eq, flatten_fragments_filter parts]

/-- Claim C4: `parse_location` selects the first available candidate
pair in the priority order [body, primary, declaration], accepting a
candidate only when its file name is a non-empty string ending in the
header suffix `.h`; with no location record, or no qualifying candidate,
the file is the empty string and the line absent. In particular, a
record exposing only a non-header `file` and a header-suffixed
`declfile` resolves to the `declfile` pair. -/
theorem parse_location_first_acceptable_candidate (node : Node) (loc : Option Location) :
    ((parse_location node loc).file, (parse_location node loc).line) =
      (match loc with
       | none => ("", (none : Option Int))
       | some l =>
         match (location_candidates l).find? (fun c => truthy_header_file c.1) with
         | some c => (c.1.getD "", c.2)
         | none => ("", none)) ∧
    (parse_location (File_init "n" "n") (some example_split_location)).file = "decl.h" ∧
    (parse_location (File_init "n" "n") (some example_split_location)).line = some 42 := by
  refine ⟨?_, by decide, by decide⟩
  cases loc with
  | none => rfl
  | some l =>
    cases hb : truthy_header_file l.bodyfile with
    | true => simp [parse_location, location_candidates, hb, List.find?]
    | false =>
      cases hf : truthy_header_file l.file with
      | true => simp [parse_location, location_candidates, hb, hf, List.find?]
      | false =>
        cases hd : truthy_header_file l.declfile with
        | true => simp [parse_location, location_candidates, hb, hf, hd, List.find?]
        | false => simp [parse_location, location_candidates, hb, hf, hd, List.find?]

/-- Claim C9: `parent_ids` and `children_ids` are absent (`none`), not
empty sets, on every freshly constructed node; after `add_parent p`
(resp. `add_child c`) the set exists and contains `p` (resp. `c`);
adding the same id again leaves the node unchanged; and neither
operation modifies `id`, `kind`, `name`, `file`, `line` or `desc`. -/
theorem add_parent_add_child_set_semantics (variant : NodeVariant) (id name : String)
    (n : Node) (p c : String) :
    (Node_init variant id name).parent_ids = none ∧
    (Node_init variant id name).children_ids = none ∧
    (File_init id name).parent_ids = none ∧
    (File_init id name).children_ids = none ∧
    (Group_init id name).parent_ids = none ∧
    (Group_init id name).children_ids = none ∧
    (Struct_init id name true).parent_ids = none ∧
    (Struct_init id name true).children_ids = none ∧
    (Struct_init id name false).parent_ids = none ∧
    (Struct_init id name false).children_ids = none ∧
    (Function_init id name).parent_ids = none ∧
    (Function_init id name).children_ids = none ∧
    (n.add_parent p).parent_ids.isSome = true ∧
    p ∈ (n.add_parent p).parent_ids.getD [] ∧
    (n.add_child c).children_ids.isSome = true ∧
    c ∈ (n.add_child c).children_ids.getD [] ∧
    (n.add_parent p).add_parent p = n.add_parent p ∧
    (n.add_child c).add_child c = n.add_child c ∧
    (n.add_parent p).id = n.id ∧ (n.add_parent p).kind = n.kind ∧
    (n.add_parent p).name = n.name ∧ (n.add_parent p).file = n.file ∧
    (n.add_parent p).line = n.line ∧ (n.add_parent p).desc = n.desc ∧
    (n.add_child c).id = n.id ∧ (n.add_child c).kind = n.kind ∧
    (n.add_child c).name = n.name ∧ (n.add_child c).file = n.file ∧
    (n.add_child c).line = n.line ∧ (n.add_child c).desc = n.desc := by
  refine ⟨rfl, rfl, rfl, rfl, rfl, rfl, rfl, rfl, rfl, rfl, rfl, rfl, rfl,
    set_add_mem _ p, rfl, set_add_mem _ c, ?_, ?_,
    rfl, rfl, rfl, rfl, rfl, rfl, rfl, rfl, rfl, rfl, rfl, rfl⟩
  · show { n with parent_ids := some (set_add (set_add (n.parent_ids.getD []) p) p) } =
      { n with parent_ids := some (set_add (n.parent_ids.getD []) p) }
    rw [set_add_twice]
  · show { n with children_ids := some (set_add (set_add (n.children_ids.getD []) c) c) } =
      { n with children_ids := some (set_add (n.children_ids.getD []) c) }
    rw [set_add_twice]

theorem node_params_update_self (func : Node) (acc : List Param)
    (h : func.params = some acc) : { func with params := some acc } = func := by
  cases func with
  | mk v i nm f l pi ci d t iu rt ps =>
    cases h
    rfl

theorem parse_function_step_foldl (ps : List DoxParam) :
    ∀ (func : Node) (acc : List Param), func.params = some acc →
      ps.foldl parse_function_step func =
        { func with params := some (acc ++
          (List.enumFrom acc.length ps).map (fun p => param_of p.1 p.2)) } := by
  induction ps with
  | nil =>
    intro func acc h
    simp only [List.foldl_nil, List.enumFrom, List.map_nil, List.append_nil]
    exact (node_params_update_self func acc h).symm
  | cons dp ps ih =>
    intro func acc h
    show ps.foldl parse_function_step (parse_function_step func dp) = _
    have hstep : parse_function_step func dp =
        { func with params := some (acc ++ [param_of acc.length dp]) } := by
      simp only [parse_function_step, param_of, h, Option.getD_some]
    rw [hstep]
    rw [ih { func with params := some (acc ++ [param_of acc.length dp]) }
      (acc ++ [param_of acc.length dp]) rfl]
    simp [List.enumFrom, List.append_assoc]

theorem parse_location_preserves_meta (node : Node) (loc : Option Location) :
    (parse_location node loc).variant = node.variant ∧
    (parse_location node loc).id = node.id ∧
    (parse_location node loc).name = node.name ∧
    (parse_location node loc).params = node.params := by
  cases loc with
  | none => exact ⟨rfl, rfl, rfl, rfl⟩
  | some l =>
    simp only [parse_location]
    split_ifs <;> exact ⟨rfl, rfl, rfl, rfl⟩

/-- Claim C7: `parse_function` produces exactly one `Function` node; its
`params` list carries one `Param` per declared parameter in declaration
order, `params[i].index = i` for every 0-based position, each `Param`'s
`type` the flattened declared type and `name` the declared name; the
node's `return_type` is the flattened return-type fragment, `"void"`
when that record is absent. A function-kind member definition yields
exactly that one node from `parse_memberdef`. -/
theorem parse_function_one_node_params_in_order (memberdef : MemberDef) :
    (parse_function memberdef).variant = NodeVariant.func ∧
    (parse_function memberdef).id = memberdef.id ∧
    (parse_function memberdef).name = memberdef.name ∧
    (parse_function memberdef).params =
      some ((List.enum memberdef.param).map (fun p => param_of p.1 p.2)) ∧
    (parse_function memberdef).return_type = some (parse_type memberdef.type) ∧
    (memberdef.type = none → (parse_function memberdef).return_type = some "void") ∧
    (memberdef.kind = "function" → parse_memberdef memberdef = [parse_function memberdef]) := by
  have hmeta := parse_location_preserves_meta (Function_init memberdef.id memberdef.name)
    memberdef.location
  have hA : ({ parse_location (Function_init memberdef.id memberdef.name)
      memberdef.location with desc := parse_description }).params = some [] := by
    show (parse_location (Function_init memberdef.id memberdef.name)
      memberdef.location).params = some []
    rw [hmeta.2.2.2]
    rfl
  have hF := parse_function_step_foldl memberdef.param
    { parse_location (Function_init memberdef.id memberdef.name)
      memberdef.location with desc := parse_description } [] hA
  refine ⟨?_, ?_, ?_, ?_, rfl, fun h => ?_, fun h => ?_⟩
  · show (memberdef.param.foldl parse_function_step
      { parse_location (Function_init memberdef.id memberdef.name)
        memberdef.location with desc := parse_description }).variant = NodeVariant.func
    rw [hF]
    exact hmeta.1
  · show (memberdef.param.foldl parse_function_step
      { parse_location (Function_init memberdef.id memberdef.name)
        memberdef.location with desc := parse_description }).id = memberdef.id
    rw [hF]
    exact hmeta.2.1
  · show (memberdef.param.foldl parse_function_step
      { parse_location (Function_init memberdef.id memberdef.name)
        memberdef.location with desc := parse_description }).name = memberdef.name
    rw [hF]
    exact hmeta.2.2.1
  · show (memberdef.param.foldl parse_function_step
      { parse_location (Function_init memberdef.id memberdef.name)
        memberdef.location with desc := parse_description }).params =
      some ((List.enum memberdef.param).map (fun p => param_of p.1 p.2))
    rw [hF]
    exact congrArg some (List.nil_append _)
  · show some (parse_type memberdef.type) = some "void"
    rw [h]
    rfl
  · simp [parse_memberdef, h]

theorem foldl_append_morphism {σ τ ι : Type}
    (step : (List σ × List τ) → ι → (List σ × List τ))
    (hsplit : ∀ acc x, step acc x =
      (acc.1 ++ (step ([], []) x).1, acc.2 ++ (step ([], []) x).2)) (xs : List ι) :
    ∀ acc, xs.foldl step acc =
      (acc.1 ++ (xs.foldl step ([], [])).1, acc.2 ++ (xs.foldl step ([], [])).2) := by
  induction xs with
  | nil => intro acc; simp
  | cons x xs ih =>
    intro acc
    show xs.foldl step (step acc x) = _
    rw [ih (step acc x), hsplit acc x]
    show _ = (acc.1 ++ (xs.foldl step (step ([], []) x)).1,
      acc.2 ++ (xs.foldl step (step ([], []) x)).2)
    rw [ih (step ([], []) x)]
    simp [List.append_assoc]

theorem parse_all_ids_step_split (acc : List String × List String) (c : IndexCompound) :
    parse_all_ids_step acc c =
      (acc.1 ++ (parse_all_ids_step ([], []) c).1,
        acc.2 ++ (parse_all_ids_step ([], []) c).2) := by
  unfold parse_all_ids_step
  split_ifs <;> simp

theorem process_compound_step_split (acc : List Entry × List String) (c : CompoundDef) :
    process_compound_step acc c =
      (acc.1 ++ (process_compound_step ([], []) c).1,
        acc.2 ++ (process_compound_step ([], []) c).2) := by
  unfold process_compound_step
  split_ifs <;> simp

theorem parse_all_ids_step_recognized (c : IndexCompound) (hk : c.kind ∈ recognized_kinds) :
    parse_all_ids_step ([], []) c = ([c.refid], []) := by
  have hd : c.kind = "file" ∨ c.kind = "group" ∨ c.kind = "struct" ∨
      c.kind = "class" ∨ c.kind = "union" := by
    simpa [recognized_kinds] using hk
  unfold parse_all_ids_step
  rw [if_pos hd]
  rfl

theorem parse_all_ids_step_silent (c : IndexCompound) (hk : c.kind ∉ recognized_kinds)
    (hs : c.kind ∈ silent_kinds) : parse_all_ids_step ([], []) c = ([], []) := by
  have hnd : ¬ (c.kind = "file" ∨ c.kind = "group" ∨ c.kind = "struct" ∨
      c.kind = "class" ∨ c.kind = "union") := by
    simpa [recognized_kinds] using hk
  have hd : c.kind = "page" ∨ c.kind = "dir" ∨ c.kind = "category" ∨
      c.kind = "concept" ∨ c.kind = "example" := by
    simpa [silent_kinds] using hs
  unfold parse_all_ids_step
  rw [if_neg hnd, if_pos hd]

theorem parse_all_ids_step_unknown (c : IndexCompound) (hk : c.kind ∉ recognized_kinds)
    (hs : c.kind ∉ silent_kinds) :
    parse_all_ids_step ([], []) c = ([], [unknown_kind_warning c.kind]) := by
  have hnd : ¬ (c.kind = "file" ∨ c.kind = "group" ∨ c.kind = "struct" ∨
      c.kind = "class" ∨ c.kind = "union") := by
    simpa [recognized_kinds] using hk
  have hns : ¬ (c.kind = "page" ∨ c.kind = "dir" ∨ c.kind = "category" ∨
      c.kind = "concept" ∨ c.kind = "example") := by
    simpa [silent_kinds] using hs
  unfold parse_all_ids_step
  rw [if_neg hnd, if_neg hns]
  rfl

theorem process_compound_step_recognized (c : CompoundDef) (hk : c.kind ∈ recognized_kinds) :
    (process_compound_step ([], []) c).2 = [] := by
  have hd : c.kind = "file" ∨ c.kind = "group" ∨ c.kind = "struct" ∨
      c.kind = "class" ∨ c.kind = "union" := by
    simpa [recognized_kinds] using hk
  unfold process_compound_step
  rcases hd with h | h | h | h | h <;> simp [h]

theorem process_compound_step_unrecognized (c : CompoundDef) (hk : c.kind ∉ recognized_kinds) :
    process_compound_step ([], []) c = ([], [unexpected_kind_warning c.kind]) := by
  have hnd : ¬ (c.kind = "file" ∨ c.kind = "group" ∨ c.kind = "struct" ∨
      c.kind = "class" ∨ c.kind = "union") := by
    simpa [recognized_kinds] using hk
  unfold process_compound_step
  rw [if_neg (fun h => hnd (Or.inl h)),
    if_neg (fun h => hnd (Or.inr (Or.inl h))),
    if_neg (fun h => hnd (Or.inr (Or.inr h)))]
  rfl

theorem parse_all_ids_kept_characterization (index : List IndexCompound) :
    (parse_all_ids index).1 =
      (index.filter (fun c => decide (c.kind ∈ recognized_kinds))).map IndexCompound.refid := by
  induction index with
  | nil => rfl
  | cons c rest ih =>
    show (rest.foldl parse_all_ids_step (parse_all_ids_step ([], []) c)).1 = _
    rw [foldl_append_morphism parse_all_ids_step parse_all_ids_step_split rest
      (parse_all_ids_step ([], []) c)]
    by_cases hk : c.kind ∈ recognized_kinds
    · rw [parse_all_ids_step_recognized c hk]
      show c.refid :: (parse_all_ids rest).1 = _
      rw [ih]
      simp [List.filter_cons, hk]
    · by_cases hs : c.kind ∈ silent_kinds
      · rw [parse_all_ids_step_silent c hk hs]
        show (parse_all_ids rest).1 = _
        rw [ih]
        simp [List.filter_cons, hk]
      · rw [parse_all_ids_step_unknown c hk hs]
        show (parse_all_ids rest).1 = _
        rw [ih]
        simp [List.filter_cons, hk]

theorem parse_all_ids_warnings_characterization (index : List IndexCompound) :
    (parse_all_ids index).2 =
      (index.filter (fun c => decide (c.kind ∉ recognized_kinds ∧ c.kind ∉ silent_kinds))).map
        (fun c => unknown_kind_warning c.kind) := by
  induction index with
  | nil => rfl
  | cons c rest ih =>
    show (rest.foldl parse_all_ids_step (parse_all_ids_step ([], []) c)).2 = _
    rw [foldl_append_morphism parse_all_ids_step parse_all_ids_step_split rest
      (parse_all_ids_step ([], []) c)]
    by_cases hk : c.kind ∈ recognized_kinds
    · rw [parse_all_ids_step_recognized c hk]
      show (parse_all_ids rest).2 = _
      rw [ih]
      simp [List.filter_cons, hk]
    · by_cases hs : c.kind ∈ silent_kinds
      · rw [parse_all_ids_step_silent c hk hs]
        show (parse_all_ids rest).2 = _
        rw [ih]
        simp [List.filter_cons, hk, hs]
      · rw [parse_all_ids_step_unknown c hk hs]
        show unknown_kind_warning c.kind :: (parse_all_ids rest).2 = _
        rw [ih]
        simp [List.filter_cons, hk, hs]

theorem process_compound_entries_ignore_unrecognized (doc : List CompoundDef) :
    (process_compound doc).1 =
      (process_compound (doc.filter (fun c => decide (c.kind ∈ recognized_kinds)))).1 := by
  induction doc with
  | nil => rfl
  | cons c rest ih =>
    show (rest.foldl process_compound_step (process_compound_step ([], []) c)).1 = _
    rw [foldl_append_morphism process_compound_step process_compound_step_split rest
      (process_compound_step ([], []) c)]
    by_cases hk : c.kind ∈ recognized_kinds
    · have hfil : (c :: rest).filter (fun c => decide (c.kind ∈ recognized_kinds)) =
          c :: rest.filter (fun c => decide (c.kind ∈ recognized_kinds)) := by
        simp [List.filter_cons, hk]
      rw [hfil]
      show _ = ((rest.filter (fun c => decide (c.kind ∈ recognized_kinds))).foldl
        process_compound_step (process_compound_step ([], []) c)).1
      rw [foldl_append_morphism process_compound_step process_compound_step_split
        (rest.filter (fun c => decide (c.kind ∈ recognized_kinds)))
        (process_compound_step ([], []) c)]
      show (process_compound_step ([], []) c).1 ++ (process_compound rest).1 =
        (process_compound_step ([], []) c).1 ++
          (process_compound (rest.filter (fun c => decide (c.kind ∈ recognized_kinds)))).1
      rw [ih]
    · rw [process_compound_step_unrecognized c hk]
      show (process_compound rest).1 = _
      rw [ih]
      have hfil : (c :: rest).filter (fun c => decide (c.kind ∈ recognized_kinds)) =
          rest.filter (fun c => decide (c.kind ∈ recognized_kinds)) := by
        simp [List.filter_cons, hk]
      rw [hfil]

theorem process_compound_warnings_characterization (doc : List CompoundDef) :
    (process_compound doc).2 =
      (doc.filter (fun c => decide (c.kind ∉ recognized_kinds))).map
        (fun c => unexpected_kind_warning c.kind) := by
  induction doc with
  | nil => rfl
  | cons c rest ih =>
    show (rest.foldl process_compound_step (process_compound_step ([], []) c)).2 = _
    rw [foldl_append_morphism process_compound_step process_compound_step_split rest
      (process_compound_step ([], []) c)]
    by_cases hk : c.kind ∈ recognized_kinds
    · rw [show ((process_compound_step ([], []) c).1 ++
        (rest.foldl process_compound_step ([], [])).1,
        (process_compound_step ([], []) c).2 ++
          (rest.foldl process_compound_step ([], [])).2).2 =
        (process_compound_step ([], []) c).2 ++ (process_compound rest).2 from rfl]
      rw [process_compound_step_recognized c hk]
      show (process_compound rest).2 = _
      rw [ih]
      simp [List.filter_cons, hk]
    · rw [process_compound_step_unrecognized c hk]
      show unexpected_kind_warning c.kind :: (process_compound rest).2 = _
      rw [ih]
      simp [List.filter_cons, hk]

/-- Claim C6: the index scan of `parse_all` keeps a listed compound's id
exactly when its kind is one of file/group/struct/class/union, skips
page/dir/category/concept/example silently, and warns on every other
kind; at the compound level `process_compound` likewise warns, naming
the unexpected kind, and produces no entry for any compound whose kind
is outside the recognized set. -/
theorem parse_all_and_process_compound_kind_filtering (index : List IndexCompound)
    (doc : List CompoundDef) :
    (parse_all_ids index).1 =
      (index.filter (fun c => decide (c.kind ∈ recognized_kinds))).map IndexCompound.refid ∧
    (parse_all_ids index).2 =
      (index.filter (fun c => decide (c.kind ∉ recognized_kinds ∧ c.kind ∉ silent_kinds))).map
        (fun c => unknown_kind_warning c.kind) ∧
    (process_compound doc).1 =
      (process_compound (doc.filter (fun c => decide (c.kind ∈ recognized_kinds)))).1 ∧
    (process_compound doc).2 =
      (doc.filter (fun c => decide (c.kind ∉ recognized_kinds))).map
        (fun c => unexpected_kind_warning c.kind) :=
  ⟨parse_all_ids_kept_characterization index, parse_all_ids_warnings_characterization index,
    process_compound_entries_ignore_unrecognized doc,
    process_compound_warnings_characterization doc⟩

/-- Claim C1, refuted on the code (code bug): on an index listing one
file compound whose document holds one function member,
`process_compound` appends the whole `list[Node]` returned by
`parse_file` as a single element (`result.append`, not `extend`), so
after the `parse_all` merge the global `nodes` collection holds one
nested list `[file_node, function_node]` as its only element; neither
parsed node appears as its own element and the element is not a single
`Node`, contradicting the claim and the source's own `list[Node]`
annotations. -/
theorem parse_all_nodes_nested_list_eval :
    (parse_all example_index example_docs (fun ids => ids) (some 4)).1 =
      [Entry.nodeList [example_parsed_file, example_parsed_function]] ∧
    List.all (parse_all example_index example_docs (fun ids => ids) (some 4)).1
      entry_is_single_node = false := by
  exact ⟨by decide, by decide⟩

/-- Claim C2, refuted on the code (code bug): `MyEncoder` serializes
`o.__dict__`, which omits class attributes; `kind` is a class attribute
of `File`, `Group` and `Function` (only `Struct.__init__` assigns it on
the instance), so the serialized object of a parsed function or file
node has no `kind` key, while a parsed struct node's object does. -/
theorem serialized_nodes_missing_kind_eval :
    node_to_json (parse_function example_function_memberdef) =
      Json.obj [("id", Json.str "fn1"), ("name", Json.str "foo"),
        ("params", Json.arr []), ("file", Json.str ""), ("line", Json.null),
        ("desc", Json.str ""), ("return_type", Json.str "void")] ∧
    (json_obj_keys (node_to_json (parse_function example_function_memberdef))).contains
      "kind" = false ∧
    (json_obj_keys (node_to_json example_parsed_file)).contains "kind" = false ∧
    (json_obj_keys (node_to_json (parse_struct example_struct_compound false))).contains
      "kind" = true := by
  exact ⟨rfl, by decide, by decide, by decide⟩
